import Mathlib

/-!
Verification development for the gitx-mcp server core: the platform
abstraction and resolution layer (configuration resolver, repository
locator, owner/repo resolution chain, unified client error normalization,
and response normalizer), shallowly embedded from the Rust sources.

String operations mirror the semantics of the Rust standard library
functions used by the sources (`trim`, `trim_end_matches`, `splitn`,
`split_once`, `strip_prefix`, `lines`), modelled over `List Char`.
-/

namespace Gitx

/-- Drops `pre` from the front of `s`, or `none` if `pre` is not a prefix.
Models Rust `str::strip_prefix`. -/
def dropPre? : List Char → List Char → Option (List Char)
  | [], s => some s
  | _ :: _, [] => none
  | p :: ps, c :: cs => if c = p then dropPre? ps cs else none

/-- Models Rust `str::strip_prefix` on strings. -/
def rustStripPre? (pre s : String) : Option String :=
  (dropPre? pre.data s.data).map String.mk

/-- Models Rust `str::starts_with`. -/
def rustStartsWith (pre s : String) : Bool :=
  (dropPre? pre.data s.data).isSome

/-- Models Rust `char::is_whitespace`: the Unicode `White_Space` property
(U+0009-U+000D, space, NEL, NBSP, Ogham space mark, U+2000-U+200A, line
and paragraph separators, narrow no-break space, medium mathematical
space, ideographic space). -/
def rustIsWhitespace (c : Char) : Bool :=
  let n := c.toNat
  (9 ≤ n && n ≤ 13) || n = 32 || n = 133 || n = 160 || n = 5760 ||
    (8192 ≤ n && n ≤ 8202) || n = 8232 || n = 8233 || n = 8239 ||
    n = 8287 || n = 12288

/-- Models Rust `str::trim_start` (Unicode whitespace from the front). -/
def rustTrimLeft (s : String) : String :=
  ⟨s.data.dropWhile rustIsWhitespace⟩

/-- Models Rust `str::trim_end` (Unicode whitespace from the back). -/
def rustTrimRight (s : String) : String :=
  ⟨(s.data.reverse.dropWhile rustIsWhitespace).reverse⟩

/-- Models Rust `str::trim`. -/
def rustTrim (s : String) : String :=
  rustTrimRight (rustTrimLeft s)

/-- Splits at the first occurrence of `sep`, returning the parts before and
after it. Models Rust `str::split_once` on the character list. -/
def splitOnceL (sep : Char) : List Char → Option (List Char × List Char)
  | [] => none
  | c :: cs =>
    if c = sep then some ([], cs)
    else (splitOnceL sep cs).map (fun p => (c :: p.1, p.2))

/-- Models Rust `str::split_once` with a character separator. -/
def splitOnceStr (sep : Char) (s : String) : Option (String × String) :=
  (splitOnceL sep s.data).map (fun p => (⟨p.1⟩, ⟨p.2⟩))

/-- Splits a character list on every occurrence of `sep`.
Models Rust `str::split` with a character pattern (never empty). -/
def splitCharL (sep : Char) : List Char → List (List Char)
  | [] => [[]]
  | c :: cs =>
    let r := splitCharL sep cs
    if c = sep then [] :: r
    else
      match r with
      | h :: t => (c :: h) :: t
      | [] => [[c]]

/-- Models Rust `str::split` with a character separator, on strings. -/
def splitOnChar (sep : Char) (s : String) : List String :=
  (splitCharL sep s.data).map String.mk

/-- At most `n` parts; the final part is the unsplit remainder.
Models Rust `str::splitn` on the character list. -/
def splitnL (sep : Char) : Nat → List Char → List (List Char)
  | 0, _ => []
  | 1, cs => [cs]
  | n + 2, cs =>
    match splitOnceL sep cs with
    | none => [cs]
    | some (a, b) => a :: splitnL sep (n + 1) b

/-- Models Rust `str::splitn` with a character separator, on strings. -/
def rustSplitn (n : Nat) (sep : Char) (s : String) : List String :=
  (splitnL sep n s.data).map String.mk

/-- One pass of repeated suffix stripping, working on the reversed list;
`fuel` bounds the number of strips (the string length always suffices).
Models the loop of Rust `str::trim_end_matches`. -/
def trimEndRevGo (patRev : List Char) : Nat → List Char → List Char
  | 0, rev => rev
  | fuel + 1, rev =>
    if !patRev.isEmpty && rev.take patRev.length == patRev then
      trimEndRevGo patRev fuel (rev.drop patRev.length)
    else rev

/-- Models Rust `str::trim_end_matches`: repeatedly strips the suffix `pat`. -/
def rustTrimEndMatches (pat s : String) : String :=
  ⟨(trimEndRevGo pat.data.reverse s.data.length s.data.reverse).reverse⟩

/-- Models Rust `str::trim_matches` with a character pattern: strips every
leading and trailing occurrence of `c`. -/
def rustTrimMatchesChar (c : Char) (s : String) : String :=
  ⟨((s.data.dropWhile (· = c)).reverse.dropWhile (· = c)).reverse⟩

/-- Models Rust `str::lines`: split on newline, drop an optional final empty
line, and strip one trailing carriage return from each line. -/
def rustLines (s : String) : List String :=
  let parts := splitOnChar '\n' s
  let parts :=
    match parts.reverse with
    | last :: rest => if last.isEmpty then rest.reverse else parts
    | [] => parts
  parts.map fun l =>
    match l.data.getLast? with
    | some '\r' => ⟨l.data.dropLast⟩
    | _ => l

/-- Models Rust `str::to_lowercase` (ASCII-faithful, which covers every
platform name the configuration resolver compares against). -/
def rustToLowercase (s : String) : String :=
  ⟨s.data.map Char.toLower⟩

/-! Data model: `src/platform.rs` enum (used throughout the sources as a
two-variant enum), `src/error.rs` `GitxError`, `src/repo_resolver.rs`
`RepoInfo`, and `src/config.rs` `Config`. -/

/-- The two backend families (enum `Platform`, variants `Gitea` and
`GitHub`, as constructed and matched across the sources). -/
inductive Platform where
  | Gitea
  | GitHub
deriving DecidableEq

/-- The error taxonomy of `src/error.rs` (`enum GitxError`). Variants that
wrap a foreign error (`Http`, `Json`, `Other`) carry that error's display
text. -/
inductive GitxError where
  | Api (detail : String)
  | Auth
  | NotFound (location : String)
  | MissingParam (detail : String)
  | RepoResolution (detail : String)
  | Http (detail : String)
  | Json (detail : String)
  | Other (detail : String)
deriving DecidableEq

/-- Owner and repository name pair (`struct RepoInfo` in
`src/repo_resolver.rs`). -/
structure RepoInfo where
  owner : String
  repo : String
deriving DecidableEq

/-- Server configuration (`struct Config` in `src/config.rs`). -/
structure Config where
  base_url : String
  token : String
  platform : Platform
deriving DecidableEq

/-! Tool-boundary error conversion: `impl From<GitxError> for ErrorData`
in `src/error.rs`. The rmcp JSON-RPC error codes are
`INVALID_PARAMS = -32602` and `INTERNAL_ERROR = -32603`. -/

/-- The rmcp `ErrorCode::INVALID_PARAMS` JSON-RPC code. -/
def invalidParamsCode : Int := -32602

/-- The rmcp `ErrorCode::INTERNAL_ERROR` JSON-RPC code. -/
def internalErrorCode : Int := -32603

/-- The error-code component of `From<GitxError> for ErrorData`
(`src/error.rs`): `MissingParam`, `NotFound` and `Auth` map to
`INVALID_PARAMS`; every other variant to `INTERNAL_ERROR`. -/
def errorCode : GitxError → Int
  | .MissingParam _ => invalidParamsCode
  | .NotFound _ => invalidParamsCode
  | .Auth => invalidParamsCode
  | _ => internalErrorCode

/-! Repository locator: `src/repo_resolver.rs`. -/

/-- The path normalization of `extract_owner_repo`
(`src/repo_resolver.rs:86`):
`path.trim_end_matches(".git").trim_matches('/')`. -/
def pathNormalize (path : String) : String :=
  rustTrimMatchesChar '/' (rustTrimEndMatches ".git" path)

/-- Extract owner/repo from a path like `owner/repo.git` or `owner/repo`
(`extract_owner_repo`, `src/repo_resolver.rs:85-99`). The indexing
`parts[0]`/`parts[1]` of the source is in bounds by the length guard and is
rendered with `getD`. -/
def extract_owner_repo (path : String) : Except GitxError RepoInfo :=
  let path := pathNormalize path
  let parts := rustSplitn 3 '/' path
  if parts.length < 2 then
    .error (.RepoResolution ("Cannot extract owner/repo from path: " ++ path))
  else
    .ok ⟨parts.getD 0 "", parts.getD 1 ""⟩

/-- The SSH-shorthand branch of `parse_remote_url`
(`src/repo_resolver.rs:57-60`): strip the literal prefix `git@`, then take
what follows the first colon. -/
def sshShorthandPath (u : String) : Option String :=
  (rustStripPre? "git@" u).bind fun s => (splitOnceStr ':' s).map (·.2)

/-- The SSH-URI branch of `parse_remote_url` (`src/repo_resolver.rs:62-70`):
strip `ssh://`, then take what follows the first slash. -/
def sshUriPath (u : String) : Option String :=
  if rustStartsWith "ssh://" u then
    (rustStripPre? "ssh://" u).bind fun s => (splitOnceStr '/' s).map (·.2)
  else none

/-- Models `url::Url::parse(u).ok().map(|p| p.path())` for `http`/`https`
URLs: the path component starts at the first `/` after the authority and
ends before any query or fragment; an empty authority is a parse error, and
an absent path is normalized to `/`. -/
def urlParsePath (u : String) : Option String :=
  match (rustStripPre? "http://" u).orElse (fun _ => rustStripPre? "https://" u) with
  | none => none
  | some rest =>
    let auth := rest.data.takeWhile fun c => c ≠ '/' && c ≠ '?' && c ≠ '#'
    if auth.isEmpty then none
    else
      let after := rest.data.drop auth.length
      match after with
      | '/' :: _ => some ⟨after.takeWhile fun c => c ≠ '?' && c ≠ '#'⟩
      | _ => some "/"

/-- The HTTP(S) branch of `parse_remote_url` (`src/repo_resolver.rs:72-78`):
parse as a URL and take the path with leading slashes stripped
(`trim_start_matches('/')`). -/
def httpPath (u : String) : Option String :=
  if rustStartsWith "http://" u || rustStartsWith "https://" u then
    (urlParsePath u).map fun p => ⟨p.data.dropWhile (· = '/')⟩
  else none

/-- Parse a git remote URL into owner/repo (`parse_remote_url`,
`src/repo_resolver.rs:54-82`): SSH shorthand, then SSH URI, then HTTP(S),
then the whole string as a fallback path. -/
def parse_remote_url (url : String) : Except GitxError RepoInfo :=
  let u := rustTrim url
  match sshShorthandPath u with
  | some path => extract_owner_repo path
  | none =>
    match sshUriPath u with
    | some path => extract_owner_repo path
    | none =>
      match httpPath u with
      | some path => extract_owner_repo path
      | none => extract_owner_repo u

/-- The `url = <value>` extraction applied to a trimmed line inside the
origin section (`src/repo_resolver.rs:39-42`). -/
def extractUrlValue (trimmed : String) : Option String :=
  (rustStripPre? "url" trimmed).bind fun s =>
    (rustStripPre? "=" (rustTrimLeft s)).map rustTrim

/-- The line scan of `resolve_repo` (`src/repo_resolver.rs:31-50`): track
whether the cursor is inside `[remote "origin"]`; on the first `url =`
assignment there, parse the remote URL; otherwise fail. -/
def findOriginUrlGo : List String → Bool → Except GitxError RepoInfo
  | [], _ => .error (.RepoResolution "No remote 'origin' URL found in .git/config")
  | line :: rest, inOrigin =>
    let trimmed := rustTrim line
    if rustStartsWith "[" trimmed then
      findOriginUrlGo rest (trimmed == "[remote \"origin\"]")
    else if inOrigin then
      match extractUrlValue trimmed with
      | some url => parse_remote_url url
      | none => findOriginUrlGo rest inOrigin
    else findOriginUrlGo rest inOrigin

/-- Scan a `.git/config` file content for the origin remote URL
(the loop body of `resolve_repo`). -/
def findOriginUrl (content : String) : Except GitxError RepoInfo :=
  findOriginUrlGo (rustLines content) false

/-- Outcome of reading `<directory>/.git/config`: the file system effects
of `resolve_repo` (existence check and `read_to_string`). -/
inductive FileRead where
  | absent
  | unreadable (ioError : String)
  | content (text : String)

/-- Resolve the owner/repo from a `.git/config` file (`resolve_repo`,
`src/repo_resolver.rs:17-51`), with the file-system read abstracted into
the `FileRead` argument. -/
def resolve_repo (directory : String) (file : FileRead) : Except GitxError RepoInfo :=
  match file with
  | .absent => .error (.RepoResolution ("No .git/config found in " ++ directory))
  | .unreadable e => .error (.RepoResolution ("Failed to read .git/config: " ++ e))
  | .content text => findOriginUrl text

/-! Owner/repo resolution chain: `resolve_owner_repo`,
`src/src/server.rs:55-81`. The calls `repo_resolver::resolve_repo(dir)` and
`repo_resolver::resolve_repo(".")` perform file-system reads; they are
abstracted into the function argument `resolveRepoFn`, invoked with exactly
the directory strings the source passes. -/

/-- Resolve owner/repo from tool params — either explicit, from directory
auto-detection, or from the server's startup-detected default
(`resolve_owner_repo`, `src/server.rs:55-81`). -/
def resolve_owner_repo (resolveRepoFn : String → Except GitxError RepoInfo)
    (owner repo directory : Option String) (defaultRepo : Option RepoInfo) :
    Except GitxError (String × String) :=
  let step1 : Option (String × String) :=
    match owner, repo with
    | some o, some r => if !o.isEmpty && !r.isEmpty then some (o, r) else none
    | _, _ => none
  let step2 : Option String :=
    match directory with
    | some d => if !d.isEmpty then some d else none
    | none => none
  match step1 with
  | some pr => .ok pr
  | none =>
    match step2 with
    | some dir => (resolveRepoFn dir).map fun i => (i.owner, i.repo)
    | none =>
      match defaultRepo with
      | some info => .ok (info.owner, info.repo)
      | none => (resolveRepoFn ".").map fun i => (i.owner, i.repo)

/-! JSON model: `serde_json::Value`. Objects are ordered association lists
with distinct keys (the map's iteration order); numbers are modelled as the
integers the sources and backends exchange. -/

/-- A `serde_json::Value`. -/
inductive Json where
  | null
  | bool (b : Bool)
  | num (n : Int)
  | str (s : String)
  | arr (items : List Json)
  | obj (fields : List (String × Json))

/-- Models `serde_json::Map::get`. -/
def jlookup (fields : List (String × Json)) (k : String) : Option Json :=
  (fields.find? fun p => p.1 == k).map (·.2)

/-- Models `Value::get` with a string key. -/
def jget (j : Json) (k : String) : Option Json :=
  match j with
  | .obj fields => jlookup fields k
  | _ => none

/-- Models `Value::as_str`. -/
def asStr : Json → Option String
  | .str s => some s
  | _ => none

/-- Models `Value::as_array` (the list of elements). -/
def asArr : Json → Option (List Json)
  | .arr items => some items
  | _ => none

/-- Models the JSON string escaping of `serde_json`'s compact serializer. -/
def serializeStringChar (c : Char) : String :=
  if c = '"' then "\\\""
  else if c = '\\' then "\\\\"
  else if c = '\x08' then "\\b"
  else if c = '\x0c' then "\\f"
  else if c = '\n' then "\\n"
  else if c = '\r' then "\\r"
  else if c = '\t' then "\\t"
  else if c.toNat < 0x20 then
    "\\u00" ++ String.singleton (Nat.digitChar (c.toNat / 16)) ++
      String.singleton (Nat.digitChar (c.toNat % 16))
  else String.singleton c

/-- Models `serde_json` string serialization (quotes and escapes). -/
def serializeString (s : String) : String :=
  "\"" ++ String.join (s.data.map serializeStringChar) ++ "\""

mutual

/-- Models `Value::to_string` (the `Display` impl of `serde_json::Value`):
compact JSON serialization. -/
def jsonToString : Json → String
  | .null => "null"
  | .bool b => if b then "true" else "false"
  | .num n => toString n
  | .str s => serializeString s
  | .arr items => "[" ++ String.intercalate "," (jsonToStringArr items) ++ "]"
  | .obj fields => "\x7b" ++ String.intercalate "," (jsonToStringObj fields) ++ "\x7d"

/-- Serializes the elements of a JSON array. -/
def jsonToStringArr : List Json → List String
  | [] => []
  | j :: rest => jsonToString j :: jsonToStringArr rest

/-- Serializes the fields of a JSON object. -/
def jsonToStringObj : List (String × Json) → List String
  | [] => []
  | (k, v) :: rest => (serializeString k ++ ":" ++ jsonToString v) :: jsonToStringObj rest

end

/-! Response normalizer: `src/response.rs`. -/

/-- Format a single field, handling nested objects and arrays
(`format_field`, `src/response.rs:36-82`). -/
def format_field (key : String) (value : Json) : String :=
  match value with
  | .null => ""
  | .str s =>
    if s.isEmpty then "" else "**" ++ key ++ ":** " ++ s
  | .num n => "**" ++ key ++ ":** " ++ toString n
  | .bool b => "**" ++ key ++ ":** " ++ (if b then "true" else "false")
  | .arr items =>
    if items.isEmpty then ""
    else
      let strs := items.filterMap fun v =>
        match v with
        | .str s => some s
        | .obj m =>
          (((jlookup m "name").orElse fun _ => jlookup m "title").orElse
            fun _ => jlookup m "login").bind asStr
        | other => some (jsonToString other)
      if strs.isEmpty then ""
      else "**" ++ key ++ ":** " ++ String.intercalate ", " strs
  | .obj m =>
    match ((((jlookup m "login").orElse fun _ => jlookup m "name").orElse
        fun _ => jlookup m "title").orElse fun _ => jlookup m "full_name").bind asStr with
    | some name => "**" ++ key ++ ":** " ++ name
    | none => ""

/-- Format a JSON object into readable key: value lines (`format_object`,
`src/response.rs:19-33`). -/
def format_object (val : Json) : String :=
  match val with
  | .obj fields =>
    String.intercalate "\n"
      ((fields.map fun p => format_field p.1 p.2).filter fun l => !l.isEmpty)
  | other => jsonToString other

/-- Format a JSON value into a readable markdown string (`format_value`,
`src/response.rs:4-16`). Total by construction: every branch returns a
string. -/
def format_value (val : Json) : String :=
  match val with
  | .null => "No data returned."
  | .arr [] => "No items found."
  | .arr items => String.intercalate "\n---\n" (items.map format_object)
  | .obj fields => format_object (.obj fields)
  | other => jsonToString other

/-! Unified client response normalization: `GiteaClient::handle_response`
(`src/client.rs:170-190`) and `GitHubClient::handle_response`
(`src/client/github.rs:62-79`). The HTTP transport is abstracted: a
response is its status code, its effective URL, its body text
(`resp.text()`, best-effort), and the outcome of JSON deserialization
(`resp.json()`, whose failure carries a `reqwest` error display). -/

/-- Models `http::StatusCode::canonical_reason` for the standard codes. -/
def canonicalReason (status : Nat) : Option String :=
  match status with
  | 100 => some "Continue"
  | 101 => some "Switching Protocols"
  | 200 => some "OK"
  | 201 => some "Created"
  | 202 => some "Accepted"
  | 204 => some "No Content"
  | 301 => some "Moved Permanently"
  | 302 => some "Found"
  | 304 => some "Not Modified"
  | 307 => some "Temporary Redirect"
  | 308 => some "Permanent Redirect"
  | 400 => some "Bad Request"
  | 401 => some "Unauthorized"
  | 402 => some "Payment Required"
  | 403 => some "Forbidden"
  | 404 => some "Not Found"
  | 405 => some "Method Not Allowed"
  | 406 => some "Not Acceptable"
  | 408 => some "Request Timeout"
  | 409 => some "Conflict"
  | 410 => some "Gone"
  | 412 => some "Precondition Failed"
  | 415 => some "Unsupported Media Type"
  | 422 => some "Unprocessable Entity"
  | 429 => some "Too Many Requests"
  | 500 => some "Internal Server Error"
  | 501 => some "Not Implemented"
  | 502 => some "Bad Gateway"
  | 503 => some "Service Unavailable"
  | 504 => some "Gateway Timeout"
  | _ => none

/-- Models the `Display` impl of `http::StatusCode`: the numeric code
followed by the canonical reason phrase. -/
def statusDisplay (status : Nat) : String :=
  toString status ++ " " ++ (canonicalReason status).getD "<unknown status code>"

/-- Models `http::StatusCode::is_success`: 200 through 299. -/
def isSuccessStatus (status : Nat) : Bool :=
  200 ≤ status && status ≤ 299

namespace GiteaClient

/-- Handle a response: check status, deserialize JSON
(`GiteaClient::handle_response`, `src/client.rs:170-190`). A
deserialization failure is a `reqwest` error and maps through `#[from]`
to `GitxError::Http`. -/
def handle_response (status : Nat) (url : String) (bodyText : String)
    (parsed : Except String Json) : Except GitxError Json :=
  if status = 401 || status = 403 then .error .Auth
  else if status = 404 then .error (.NotFound url)
  else if !isSuccessStatus status then
    .error (.Api ("HTTP " ++ statusDisplay status ++ ": " ++ bodyText))
  else
    match parsed with
    | .ok body => .ok body
    | .error e => .error (.Http e)

end GiteaClient

namespace GitHubClient

/-- Handle a response: check status, deserialize JSON to Value
(`GitHubClient::handle_response`, `src/client/github.rs:62-79`). -/
def handle_response (status : Nat) (url : String) (bodyText : String)
    (parsed : Except String Json) : Except GitxError Json :=
  if status = 401 || status = 403 then .error .Auth
  else if status = 404 then .error (.NotFound url)
  else if !isSuccessStatus status then
    .error (.Api ("HTTP " ++ statusDisplay status ++ ": " ++ bodyText))
  else
    match parsed with
    | .ok body => .ok body
    | .error e => .error (.Http e)

end GitHubClient

/-! Configuration resolver: `Config::from_env`, `src/config.rs:23-144`.
The environment reads are the function's arguments; the cwd git-remote
inspection of branch 3 (`detect_platform_from_remote`, a `git` subprocess)
is abstracted into the `remoteDetect` argument. -/

/-- Load configuration from environment variables (`Config::from_env`).
Argument order follows the variable reads of the source:
`GIT_PLATFORM`, `GITEA_URL`/`FORGEJO_REMOTE_URL`,
`GITEA_TOKEN`/`FORGEJO_AUTH_TOKEN`, `GITHUB_TOKEN`, `GITHUB_URL`. -/
def from_env (explicitPlatform giteaUrl giteaToken githubToken githubUrl : Option String)
    (remoteDetect : Option Platform) : Except GitxError Config :=
  match explicitPlatform with
  | some p =>
    match rustToLowercase p with
    | "gitea" | "forgejo" =>
      match giteaUrl with
      | none => .error (.MissingParam
          "GIT_PLATFORM=gitea but GITEA_URL (or FORGEJO_REMOTE_URL) is not set")
      | some bu =>
        match giteaToken with
        | none => .error (.MissingParam
            "GIT_PLATFORM=gitea but GITEA_TOKEN (or FORGEJO_AUTH_TOKEN) is not set")
        | some tok => .ok ⟨rustTrimEndMatches "/" bu, tok, .Gitea⟩
    | "github" =>
      match githubToken.orElse fun _ => giteaToken with
      | none => .error (.MissingParam "GIT_PLATFORM=github but GITHUB_TOKEN is not set")
      | some tok =>
        .ok ⟨rustTrimEndMatches "/" (githubUrl.getD "https://github.com"), tok, .GitHub⟩
    | other => .error (.MissingParam
        ("GIT_PLATFORM=" ++ other ++ " is not recognized. Use 'gitea', 'forgejo', or 'github'."))
  | none =>
    match githubToken, giteaUrl, giteaToken with
    | some tok, none, none =>
      .ok ⟨rustTrimEndMatches "/" (githubUrl.getD "https://github.com"), tok, .GitHub⟩
    | some ghTok, some gtUrl, some gtTok =>
      match remoteDetect with
      | some .GitHub =>
        .ok ⟨rustTrimEndMatches "/" (githubUrl.getD "https://github.com"), ghTok, .GitHub⟩
      | some .Gitea => .ok ⟨rustTrimEndMatches "/" gtUrl, gtTok, .Gitea⟩
      | none => .error (.MissingParam
          "Both GITHUB_TOKEN and GITEA_URL/GITEA_TOKEN are set. Set GIT_PLATFORM=github or GIT_PLATFORM=gitea to disambiguate.")
    | _, some gtUrl, some gtTok => .ok ⟨rustTrimEndMatches "/" gtUrl, gtTok, .Gitea⟩
    | _, _, _ => .error (.MissingParam
        "No git platform credentials found. Set GITEA_URL + GITEA_TOKEN for Gitea/Forgejo, or GITHUB_TOKEN for GitHub.")

/-! Base64 (the `base64` crate's `STANDARD` engine: padded, canonical) and
UTF-8 (`String::from_utf8`), used by the wiki tools' content handling. -/

/-- Value of a standard-alphabet base64 character. -/
def b64Val (c : Char) : Option Nat :=
  let n := c.toNat
  if 65 ≤ n && n ≤ 90 then some (n - 65)
  else if 97 ≤ n && n ≤ 122 then some (n - 71)
  else if 48 ≤ n && n ≤ 57 then some (n + 4)
  else if c = '+' then some 62
  else if c = '/' then some 63
  else none

/-- Standard-alphabet character for a 6-bit value. -/
def b64Char (n : Nat) : Char :=
  if n < 26 then Char.ofNat (65 + n)
  else if n < 52 then Char.ofNat (97 + (n - 26))
  else if n < 62 then Char.ofNat (48 + (n - 52))
  else if n = 62 then '+'
  else '/'

/-- Decodes base64 in four-character blocks with canonical `=` padding.
Models `base64::engine::general_purpose::STANDARD.decode`. -/
def b64DecodeGo : List Char → Option (List Nat)
  | [] => some []
  | a :: b :: c :: d :: rest =>
    match b64Val a, b64Val b with
    | some va, some vb =>
      if c = '=' then
        if d = '=' ∧ rest = [] then
          if vb % 16 = 0 then some [va * 4 + vb / 16] else none
        else none
      else
        match b64Val c with
        | some vc =>
          if d = '=' then
            if rest = [] then
              if vc % 4 = 0 then some [va * 4 + vb / 16, (vb % 16) * 16 + vc / 4]
              else none
            else none
          else
            match b64Val d with
            | some vd =>
              (b64DecodeGo rest).map fun tail =>
                (va * 4 + vb / 16) :: ((vb % 16) * 16 + vc / 4) :: ((vc % 4) * 64 + vd) :: tail
            | none => none
        | none => none
    | _, _ => none
  | _ => none

/-- Models `base64::engine::general_purpose::STANDARD.decode` on a string,
producing bytes. -/
def base64Decode (s : String) : Option (List Nat) :=
  b64DecodeGo s.data

/-- Encodes bytes three at a time with `=` padding. -/
def b64EncodeGo : List Nat → List Char
  | [] => []
  | [x] => [b64Char (x / 4), b64Char ((x % 4) * 16), '=', '=']
  | [x, y] => [b64Char (x / 4), b64Char ((x % 4) * 16 + y / 16), b64Char ((y % 16) * 4), '=']
  | x :: y :: z :: rest =>
    b64Char (x / 4) :: b64Char ((x % 4) * 16 + y / 16) ::
      b64Char ((y % 16) * 4 + z / 64) :: b64Char (z % 64) :: b64EncodeGo rest

/-- Models `base64::engine::general_purpose::STANDARD.encode`. -/
def base64Encode (bytes : List Nat) : String :=
  ⟨b64EncodeGo bytes⟩

/-- Whether a byte is a UTF-8 continuation byte. -/
def isUtf8Cont (b : Nat) : Bool :=
  128 ≤ b && b ≤ 191

/-- Strict UTF-8 decoding of a byte list (rejecting overlong forms and
surrogates). Models the validation of `String::from_utf8`. -/
def utf8Decode : List Nat → Option (List Char)
  | [] => some []
  | b :: rest =>
    if b < 128 then (utf8Decode rest).map (Char.ofNat b :: ·)
    else if b < 194 then none
    else if b < 224 then
      match rest with
      | b1 :: rest2 =>
        if isUtf8Cont b1 then
          (utf8Decode rest2).map (Char.ofNat ((b - 192) * 64 + (b1 - 128)) :: ·)
        else none
      | [] => none
    else if b < 240 then
      match rest with
      | b1 :: b2 :: rest2 =>
        if isUtf8Cont b1 && isUtf8Cont b2 then
          let v := (b - 224) * 4096 + (b1 - 128) * 64 + (b2 - 128)
          if 2048 ≤ v ∧ ¬(55296 ≤ v ∧ v ≤ 57343) then
            (utf8Decode rest2).map (Char.ofNat v :: ·)
          else none
        else none
      | _ => none
    else if b < 245 then
      match rest with
      | b1 :: b2 :: b3 :: rest2 =>
        if isUtf8Cont b1 && isUtf8Cont b2 && isUtf8Cont b3 then
          let v := (b - 240) * 262144 + (b1 - 128) * 4096 + (b2 - 128) * 64 + (b3 - 128)
          if 65536 ≤ v ∧ v ≤ 1114111 then
            (utf8Decode rest2).map (Char.ofNat v :: ·)
          else none
        else none
      | _ => none
    else none

/-- UTF-8 encoding of one character (the bytes of `str::as_bytes`). -/
def utf8EncodeChar (c : Char) : List Nat :=
  let n := c.toNat
  if n < 128 then [n]
  else if n < 2048 then [192 + n / 64, 128 + n % 64]
  else if n < 65536 then [224 + n / 4096, 128 + (n / 64) % 64, 128 + n % 64]
  else [240 + n / 262144, 128 + (n / 4096) % 64, 128 + (n / 64) % 64, 128 + n % 64]

/-- The UTF-8 bytes of a string (`str::as_bytes`). -/
def stringUtf8Bytes (s : String) : List Nat :=
  (s.data.map utf8EncodeChar).flatten

/-- Models Rust `str::replace('\n', "")`. -/
def stripNewlineChars (s : String) : String :=
  ⟨s.data.filter (· ≠ '\n')⟩

/-- The decode pipeline of the wiki/file content renderers:
`STANDARD.decode(..).ok().and_then(|bytes| String::from_utf8(bytes).ok())`. -/
def base64DecodeToString (clean : String) : Option String :=
  (base64Decode clean).bind fun bytes => (utf8Decode bytes).map fun cs => ⟨cs⟩

/-! Wiki tools: `src/tools/wiki.rs`. The `GitClient` capability object is
modelled as a record of the verbs the wiki tools call, plus the bound
platform; the server's `resolve_repo` file-system effect keeps the
`resolveRepoFn` abstraction of `resolve_owner_repo`. -/

/-- Parameters of `wiki_list` (`WikiListParams`). -/
structure WikiListParams where
  owner : Option String
  repo : Option String
  directory : Option String
  page : Option Int
  limit : Option Int

/-- Parameters of `wiki_get` (`WikiGetParams`). -/
structure WikiGetParams where
  owner : Option String
  repo : Option String
  directory : Option String
  slug : String

/-- Parameters of `wiki_create` (`WikiCreateParams`). -/
structure WikiCreateParams where
  owner : Option String
  repo : Option String
  directory : Option String
  title : String
  content : String

/-- The `GitClient` capability as consumed by the wiki tools: the bound
platform and the three verbs they issue, abstracted as functions from the
request to the normalized outcome. -/
structure ClientModel where
  platform : Platform
  get_json : String → Except GitxError Json
  get_json_with_query : String → List (String × String) → Except GitxError Json
  post_json : String → Json → Except GitxError Json

/-- Models `CallToolResult::success(vec![Content::text(..)])`. -/
inductive ToolResult where
  | success (text : String)
deriving DecidableEq

/-- List wiki pages (`wiki_list`, `src/tools/wiki.rs:50-95`). -/
def wiki_list (client : ClientModel) (resolveRepoFn : String → Except GitxError RepoInfo)
    (params : WikiListParams) (defaultRepo : Option RepoInfo) :
    Except GitxError ToolResult :=
  if client.platform = .GitHub then
    .ok (.success "Wiki CRUD is not available on GitHub. GitHub does not expose a wiki API.")
  else
    match resolve_owner_repo resolveRepoFn params.owner params.repo params.directory defaultRepo with
    | .error e => .error e
    | .ok (owner, repo) =>
      let query := [("page", toString (params.page.getD 1)),
                    ("limit", toString (min (params.limit.getD 20) 50))]
      match client.get_json_with_query ("/repos/" ++ owner ++ "/" ++ repo ++ "/wiki/pages") query with
      | .error (.NotFound _) =>
        .ok (.success "No wiki pages found (wiki may be disabled for this repository).")
      | .error e => .error e
      | .ok val =>
        let pages := (asArr val).getD []
        if pages.isEmpty then .ok (.success "No wiki pages found.")
        else
          let formatted := pages.map fun p =>
            let title := ((jget p "title").bind asStr).getD "?"
            let subUrl := ((jget p "sub_url").bind asStr).getD "?"
            "- " ++ title ++ " (slug: " ++ subUrl ++ ")"
          .ok (.success (String.intercalate "\n" formatted))

/-- Read one wiki page (`wiki_get`, `src/tools/wiki.rs:97-136`). -/
def wiki_get (client : ClientModel) (resolveRepoFn : String → Except GitxError RepoInfo)
    (params : WikiGetParams) (defaultRepo : Option RepoInfo) :
    Except GitxError ToolResult :=
  if client.platform = .GitHub then
    .ok (.success "Wiki CRUD is not available on GitHub. GitHub does not expose a wiki API.")
  else
    match resolve_owner_repo resolveRepoFn params.owner params.repo params.directory defaultRepo with
    | .error e => .error e
    | .ok (owner, repo) =>
      match client.get_json ("/repos/" ++ owner ++ "/" ++ repo ++ "/wiki/page/" ++ params.slug) with
      | .error e => .error e
      | .ok page =>
        let title := ((jget page "title").bind asStr).getD "(untitled)"
        let content := ((jget page "content_base64").bind asStr).getD ""
        let decoded :=
          if !content.isEmpty then
            (base64DecodeToString (stripNewlineChars content)).getD "(failed to decode content)"
          else "(empty page)"
        .ok (.success ("## " ++ title ++ "\n\n" ++ decoded))

/-- Create a wiki page (`wiki_create`, `src/tools/wiki.rs:138-165`). -/
def wiki_create (client : ClientModel) (resolveRepoFn : String → Except GitxError RepoInfo)
    (params : WikiCreateParams) (defaultRepo : Option RepoInfo) :
    Except GitxError ToolResult :=
  if client.platform = .GitHub then
    .ok (.success "Wiki CRUD is not available on GitHub. GitHub does not expose a wiki API.")
  else
    match resolve_owner_repo resolveRepoFn params.owner params.repo params.directory defaultRepo with
    | .error e => .error e
    | .ok (owner, repo) =>
      let encoded := base64Encode (stringUtf8Bytes params.content)
      let body := Json.obj [("title", .str params.title), ("content_base64", .str encoded)]
      match client.post_json ("/repos/" ++ owner ++ "/" ++ repo ++ "/wiki/new") body with
      | .error e => .error e
      | .ok _ => .ok (.success ("Wiki page created: " ++ params.title))

/-! Spec-side definitions, written from the specification's words for
comparison against the embedded source functions. -/

/-- Strips at most ONE trailing occurrence of `pat` (the fuel-1 run of the
repeated stripper). -/
def rustTrimEndOnce (pat s : String) : String :=
  ⟨(trimEndRevGo pat.data.reverse 1 s.data.reverse).reverse⟩

/-- Written from the spec's words for the Repository Locator's path
handling: strip a SINGLE trailing `.git` suffix and surrounding `/`, then
split and take the first two parts. Compared against `extract_owner_repo`,
which strips every trailing `.git`. -/
def extract_owner_repo_singleStrip (path : String) : Except GitxError RepoInfo :=
  let path := rustTrimMatchesChar '/' (rustTrimEndOnce ".git" path)
  let parts := rustSplitn 3 '/' path
  if parts.length < 2 then
    .error (.RepoResolution ("Cannot extract owner/repo from path: " ++ path))
  else
    .ok ⟨parts.getD 0 "", parts.getD 1 ""⟩

/-- Written from the spec's words (amended): normalize the path, split it
fully on `/`, and let the first two segments become owner and name; fewer
than two segments is a resolution failure naming the path. Compared
against `extract_owner_repo`, which splits into at most three parts. -/
def extract_owner_repo_spec (path : String) : Except GitxError RepoInfo :=
  let p := pathNormalize path
  match splitOnChar '/' p with
  | a :: b :: _ => .ok ⟨a, b⟩
  | _ => .error (.RepoResolution ("Cannot extract owner/repo from path: " ++ p))

/-- Whether step 1 of the resolution chain applies: both explicit owner
and repo present and non-empty. -/
def step1Applies (owner repo : Option String) : Bool :=
  match owner, repo with
  | some o, some r => !o.isEmpty && !r.isEmpty
  | _, _ => false

/-- Whether the explicit directory is absent for the purposes of step 2 of
the resolution chain: omitted or the empty string. -/
def dirAbsent (directory : Option String) : Bool :=
  match directory with
  | none => true
  | some d => d.isEmpty

/-- A repository resolver that always fails, for exercising the chain at
concrete inputs. -/
def failResolver : String → Except GitxError RepoInfo :=
  fun _ => .error (.RepoResolution "none")

/-- The lines lying inside a `[remote "origin"]` section: every
non-header line whose most recent preceding section header is the origin
header (the lines the scan visits with its origin flag set). When the
content has no origin header at all, this is empty. -/
def originSectionLines : List String → Bool → List String
  | [], _ => []
  | line :: rest, inOrigin =>
    let trimmed := rustTrim line
    if rustStartsWith "[" trimmed then
      originSectionLines rest (trimmed == "[remote \"origin\"]")
    else if inOrigin then
      line :: originSectionLines rest inOrigin
    else
      originSectionLines rest inOrigin

end Gitx

deriving instance DecidableEq for Except

namespace Gitx

/-! Helper lemmas. -/

/-- Unfolding of the full splitter through `splitOnceL`. -/
theorem splitCharL_cons (sep : Char) (cs : List Char) :
    splitCharL sep cs =
      (match splitOnceL sep cs with
       | none => [cs]
       | some p => p.1 :: splitCharL sep p.2) := by
  induction cs with
  | nil => rfl
  | cons c cs ih =>
    by_cases hc : c = sep
    · simp [splitCharL, splitOnceL, hc]
    · cases hs : splitOnceL sep cs with
      | none =>
        rw [splitCharL, ih]
        simp [splitOnceL, hc, hs]
      | some p =>
        rw [splitCharL, ih]
        simp [splitOnceL, hc, hs]

/-- The full splitter below a found separator. -/
theorem splitCharL_some (sep : Char) (cs a b : List Char)
    (h : splitOnceL sep cs = some (a, b)) :
    splitCharL sep cs = a :: splitCharL sep b := by
  rw [splitCharL_cons, h]

/-- The full splitter when no separator occurs. -/
theorem splitCharL_none (sep : Char) (cs : List Char)
    (h : splitOnceL sep cs = none) :
    splitCharL sep cs = [cs] := by
  rw [splitCharL_cons, h]

/-- The full splitter never returns an empty list. -/
theorem splitCharL_ne_nil (sep : Char) (cs : List Char) : splitCharL sep cs ≠ [] := by
  induction cs with
  | nil => simp [splitCharL]
  | cons c cs ih =>
    rw [splitCharL]
    by_cases hc : c = sep
    · simp [hc]
    · simp only [hc, if_false]
      cases h : splitCharL sep cs with
      | nil => exact absurd h ih
      | cons a t => simp

/-- Stripping a prefix it just appended recovers the remainder. -/
theorem dropPre?_append (pre s : List Char) : dropPre? pre (pre ++ s) = some s := by
  induction pre with
  | nil => rfl
  | cons p ps ih => simpa [dropPre?] using ih

/-- `extract_owner_repo` computes the first two segments of the FULL split
of the normalized path: the `splitn(3, _)` of the source and the spec-side
full split agree on the first two parts. -/
theorem extract_owner_repo_eq_spec (path : String) :
    extract_owner_repo path = extract_owner_repo_spec path := by
  simp only [extract_owner_repo, extract_owner_repo_spec, rustSplitn, splitOnChar]
  cases h1 : splitOnceL '/' (pathNormalize path).data with
  | none =>
    rw [splitCharL_none _ _ h1]
    simp [splitnL, h1]
  | some p =>
    obtain ⟨a, b⟩ := p
    rw [splitCharL_some _ _ _ _ h1]
    cases h2 : splitOnceL '/' b with
    | none =>
      rw [splitCharL_none _ _ h2]
      simp [splitnL, h1, h2]
    | some q =>
      obtain ⟨c, d⟩ := q
      rw [splitCharL_some _ _ _ _ h2]
      cases h3 : splitCharL '/' d with
      | nil => exact absurd h3 (splitCharL_ne_nil '/' d)
      | cons e t => simp [splitnL, h1, h2, h3]

/-- A negated success range makes `isSuccessStatus` false. -/
theorem isSuccessStatus_eq_false (status : Nat) (h : ¬(200 ≤ status ∧ status ≤ 299)) :
    isSuccessStatus status = false := by
  simp only [isSuccessStatus, Bool.and_eq_false_iff, decide_eq_false_iff_not]
  omega

/-- `splitn` produces at most `n` parts. -/
theorem splitnL_length_le (sep : Char) (n : Nat) (cs : List Char) (hn : 1 ≤ n) :
    (splitnL sep n cs).length ≤ n := by
  induction n generalizing cs with
  | zero => omega
  | succ m ih =>
    match m, cs with
    | 0, cs => simp [splitnL]
    | m + 1, cs =>
      rw [splitnL]
      cases h : splitOnceL sep cs with
      | none => simp
      | some p =>
        have hp := ih p.2 (by omega)
        simp only [List.length_cons]
        omega

/-- A non-empty string has a false `isEmpty` flag. -/
theorem isEmpty_false_of_ne (s : String) (h : s ≠ "") : s.isEmpty = false := by
  cases hb : s.isEmpty
  · rfl
  · exact absurd ((String.isEmpty_iff s).mp hb) h

/-- When step 1 does not apply, the chain continues with steps 2-4. -/
theorem resolve_owner_repo_step1_false (f : String → Except GitxError RepoInfo)
    (owner repo directory : Option String) (defaultRepo : Option RepoInfo)
    (hstep : step1Applies owner repo = false) :
    resolve_owner_repo f owner repo directory defaultRepo =
      (match (match directory with
              | some d => if !d.isEmpty then some d else none
              | none => none) with
       | some dir => (f dir).map fun i => (i.owner, i.repo)
       | none =>
         match defaultRepo with
         | some info => .ok (info.owner, info.repo)
         | none => (f ".").map fun i => (i.owner, i.repo)) := by
  match owner, repo with
  | some o, some r =>
    simp only [step1Applies] at hstep
    simp [resolve_owner_repo, hstep]
  | some _, none => rfl
  | none, some _ => rfl
  | none, none => rfl

/-- With no origin header anywhere, no line lies inside an origin
section. -/
theorem originSectionLines_nil_of_no_header (ls : List String)
    (h : ∀ l ∈ ls, rustTrim l ≠ "[remote \"origin\"]") :
    originSectionLines ls false = [] := by
  induction ls with
  | nil => rfl
  | cons line rest ih =>
    have hline := h line (by simp)
    have hrest : ∀ l ∈ rest, rustTrim l ≠ "[remote \"origin\"]" :=
      fun l hl => h l (List.mem_cons_of_mem _ hl)
    have hne : (rustTrim line == "[remote \"origin\"]") = false := by
      simp [hline]
    simp only [originSectionLines]
    by_cases hb : rustStartsWith "[" (rustTrim line)
    · simp only [hb, if_true, hne]
      exact ih hrest
    · simp only [hb, Bool.false_eq_true, if_false]
      exact ih hrest

/-- The origin scan cannot return when no line INSIDE an origin section
carries a `url =` value (lines of other sections are unconstrained). -/
theorem findOriginGo_of_section_no_url (ls : List String) :
    ∀ b : Bool,
      (∀ l ∈ originSectionLines ls b, extractUrlValue (rustTrim l) = none) →
      findOriginUrlGo ls b =
        .error (.RepoResolution "No remote 'origin' URL found in .git/config") := by
  induction ls with
  | nil => intro b _; rfl
  | cons line rest ih =>
    intro b h
    by_cases hb : rustStartsWith "[" (rustTrim line)
    · simp only [findOriginUrlGo, hb, if_true]
      apply ih
      intro l hl
      apply h
      simp only [originSectionLines, hb, if_true]
      exact hl
    · cases b with
      | false =>
        simp only [findOriginUrlGo, hb, Bool.false_eq_true, if_false]
        apply ih false
        intro l hl
        apply h
        simp only [originSectionLines, hb, Bool.false_eq_true, if_false]
        exact hl
      | true =>
        have hline : extractUrlValue (rustTrim line) = none := by
          apply h
          simp only [originSectionLines, hb, Bool.false_eq_true, if_false, if_true]
          exact List.mem_cons_self _ _
        simp only [findOriginUrlGo, hb, Bool.false_eq_true, if_false, if_true, hline]
        apply ih true
        intro l hl
        apply h
        simp only [originSectionLines, hb, Bool.false_eq_true, if_false, if_true]
        exact List.mem_cons_of_mem _ hl

/-! Claim theorems. -/

/-- C8: the tool-boundary error conversion (`From<GitxError> for
ErrorData`) is total over the taxonomy and lands in exactly two code
classes; `MissingParam`, `NotFound` and `Auth` map to the
invalid-parameter code, every other kind to the internal code. -/
theorem error_code_classes :
    ∀ e : GitxError,
      (errorCode e = invalidParamsCode ∨ errorCode e = internalErrorCode) ∧
      (errorCode e = invalidParamsCode ↔
        e = .Auth ∨ (∃ s, e = .NotFound s) ∨ (∃ s, e = .MissingParam s)) := by
  intro e
  cases e <;> simp [errorCode, invalidParamsCode, internalErrorCode]

/-- C2: in both backend clients' `handle_response`, a 401 or 403 status
yields `Auth` regardless of the body, a 404 yields `NotFound` carrying the
request URL, and any other non-2xx status yields `Api` carrying the
displayed status and the response body text. -/
theorem handle_response_status_mapping :
    ∀ (status : Nat) (url bodyText : String) (parsed : Except String Json),
      ((status = 401 ∨ status = 403) →
        GiteaClient.handle_response status url bodyText parsed = .error .Auth ∧
        GitHubClient.handle_response status url bodyText parsed = .error .Auth) ∧
      (status = 404 →
        GiteaClient.handle_response status url bodyText parsed = .error (.NotFound url) ∧
        GitHubClient.handle_response status url bodyText parsed = .error (.NotFound url)) ∧
      (status ≠ 401 → status ≠ 403 → status ≠ 404 → ¬(200 ≤ status ∧ status ≤ 299) →
        GiteaClient.handle_response status url bodyText parsed =
          .error (.Api ("HTTP " ++ statusDisplay status ++ ": " ++ bodyText)) ∧
        GitHubClient.handle_response status url bodyText parsed =
          .error (.Api ("HTTP " ++ statusDisplay status ++ ": " ++ bodyText))) := by
  intro status url bodyText parsed
  refine ⟨?_, ?_, ?_⟩
  · rintro (rfl | rfl) <;>
      exact ⟨rfl, rfl⟩
  · rintro rfl
    exact ⟨rfl, rfl⟩
  · intro h1 h3 h4 h2
    have hs := isSuccessStatus_eq_false status h2
    constructor <;>
      simp [GiteaClient.handle_response, GitHubClient.handle_response, h1, h3, h4, hs]

/-- Witness for C2 at concrete statuses 401, 404 and 500. -/
theorem handle_response_status_mapping_witness :
    GiteaClient.handle_response 401 "https://h/x" "body" (.ok .null) = .error .Auth ∧
    GitHubClient.handle_response 404 "https://h/x" "body" (.ok .null) =
      .error (.NotFound "https://h/x") ∧
    GiteaClient.handle_response 500 "https://h/x" "oops" (.ok .null) =
      .error (.Api ("HTTP " ++ statusDisplay 500 ++ ": " ++ "oops")) := by
  refine ⟨?_, ?_, ?_⟩
  · exact ((handle_response_status_mapping 401 "https://h/x" "body" (.ok .null)).1
      (Or.inl rfl)).1
  · exact ((handle_response_status_mapping 404 "https://h/x" "body" (.ok .null)).2.1 rfl).2
  · exact ((handle_response_status_mapping 500 "https://h/x" "oops" (.ok .null)).2.2
      (by decide) (by decide) (by decide) (by decide)).1

/-- C9: with the explicit platform override `github`, configuration
loading takes `GITHUB_TOKEN` or, failing that, the Gitea/Forgejo token;
it selects the GitHub platform with that credential and only errors with
the `GITHUB_TOKEN is not set` message when both tokens are absent. -/
theorem from_env_github_override :
    (∀ (giteaUrl : Option String) (gt : String) (githubUrl : Option String)
        (rd : Option Platform),
      from_env (some "github") giteaUrl (some gt) none githubUrl rd =
        .ok ⟨rustTrimEndMatches "/" (githubUrl.getD "https://github.com"), gt, .GitHub⟩) ∧
    (∀ (giteaUrl githubUrl : Option String) (rd : Option Platform),
      from_env (some "github") giteaUrl none none githubUrl rd =
        .error (.MissingParam "GIT_PLATFORM=github but GITHUB_TOKEN is not set")) ∧
    (∀ (giteaUrl : Option String) (giteaToken : Option String) (gh : String)
        (githubUrl : Option String) (rd : Option Platform),
      from_env (some "github") giteaUrl giteaToken (some gh) githubUrl rd =
        .ok ⟨rustTrimEndMatches "/" (githubUrl.getD "https://github.com"), gh, .GitHub⟩) := by
  refine ⟨fun _ _ _ _ => rfl, fun _ _ _ => rfl, fun _ _ _ _ _ => rfl⟩

/-- C10: on a GitHub-platform client, each wiki tool returns the fixed
unavailability success message for every combination of parameters,
resolver outcome and client behavior — the owner/repo resolution chain
and the client verbs are never consulted on this path, so unresolvable
coordinates or directories cannot produce an error. -/
theorem wiki_tools_github_guard :
    ∀ (client : ClientModel) (resolveRepoFn : String → Except GitxError RepoInfo)
      (lp : WikiListParams) (gp : WikiGetParams) (cp : WikiCreateParams)
      (defaultRepo : Option RepoInfo),
      client.platform = .GitHub →
      wiki_list client resolveRepoFn lp defaultRepo =
        .ok (.success "Wiki CRUD is not available on GitHub. GitHub does not expose a wiki API.") ∧
      wiki_get client resolveRepoFn gp defaultRepo =
        .ok (.success "Wiki CRUD is not available on GitHub. GitHub does not expose a wiki API.") ∧
      wiki_create client resolveRepoFn cp defaultRepo =
        .ok (.success "Wiki CRUD is not available on GitHub. GitHub does not expose a wiki API.") := by
  intro client f lp gp cp d h
  refine ⟨?_, ?_, ?_⟩ <;> simp [wiki_list, wiki_get, wiki_create, h]

/-- Witness for C10: a GitHub client whose every verb fails, a resolver
that always fails, and a directory that cannot be resolved still produce
the fixed success message. -/
theorem wiki_tools_github_guard_witness :
    wiki_list
        ⟨.GitHub, fun _ => .error (.Api "unused"), fun _ _ => .error (.Api "unused"),
          fun _ _ => .error (.Api "unused")⟩
        (fun _ => .error (.RepoResolution "unresolvable"))
        ⟨none, none, some "/nowhere", none, none⟩ none =
      .ok (.success "Wiki CRUD is not available on GitHub. GitHub does not expose a wiki API.") ∧
    wiki_get
        ⟨.GitHub, fun _ => .error (.Api "unused"), fun _ _ => .error (.Api "unused"),
          fun _ _ => .error (.Api "unused")⟩
        (fun _ => .error (.RepoResolution "unresolvable"))
        ⟨none, none, some "/nowhere", "Home"⟩ none =
      .ok (.success "Wiki CRUD is not available on GitHub. GitHub does not expose a wiki API.") ∧
    wiki_create
        ⟨.GitHub, fun _ => .error (.Api "unused"), fun _ _ => .error (.Api "unused"),
          fun _ _ => .error (.Api "unused")⟩
        (fun _ => .error (.RepoResolution "unresolvable"))
        ⟨none, none, some "/nowhere", "Title", "Body"⟩ none =
      .ok (.success "Wiki CRUD is not available on GitHub. GitHub does not expose a wiki API.") := by
  have h := wiki_tools_github_guard
    ⟨.GitHub, fun _ => .error (.Api "unused"), fun _ _ => .error (.Api "unused"),
      fun _ _ => .error (.Api "unused")⟩
    (fun _ => .error (.RepoResolution "unresolvable"))
    ⟨none, none, some "/nowhere", none, none⟩
    ⟨none, none, some "/nowhere", "Home"⟩
    ⟨none, none, some "/nowhere", "Title", "Body"⟩ none rfl
  exact ⟨h.1, h.2.1, h.2.2⟩

/-- C1: the resolution chain selects the highest-precedence available
source, treating empty strings as absent: both explicit coordinates
non-empty use them verbatim; otherwise a non-empty directory is resolved;
otherwise a cached default is used; otherwise the working directory is
resolved. In particular, explicit owner `a` with empty repo and a cached
default yields the cached default. -/
theorem resolve_owner_repo_precedence :
    (∀ (f : String → Except GitxError RepoInfo) (o r : String) (dir : Option String)
        (d : Option RepoInfo), o ≠ "" → r ≠ "" →
      resolve_owner_repo f (some o) (some r) dir d = .ok (o, r)) ∧
    (∀ (f : String → Except GitxError RepoInfo) (owner repo : Option String) (dir : String)
        (d : Option RepoInfo), step1Applies owner repo = false → dir ≠ "" →
      resolve_owner_repo f owner repo (some dir) d =
        (f dir).map fun i => (i.owner, i.repo)) ∧
    (∀ (f : String → Except GitxError RepoInfo) (owner repo directory : Option String)
        (d : RepoInfo), step1Applies owner repo = false → dirAbsent directory = true →
      resolve_owner_repo f owner repo directory (some d) = .ok (d.owner, d.repo)) ∧
    (∀ (f : String → Except GitxError RepoInfo) (owner repo directory : Option String),
      step1Applies owner repo = false → dirAbsent directory = true →
      resolve_owner_repo f owner repo directory none =
        (f ".").map fun i => (i.owner, i.repo)) ∧
    (∀ (f : String → Except GitxError RepoInfo) (d : RepoInfo),
      resolve_owner_repo f (some "a") (some "") none (some d) = .ok (d.owner, d.repo)) := by
  refine ⟨?_, ?_, ?_, ?_, ?_⟩
  · intro f o r dir d ho hr
    simp [resolve_owner_repo, isEmpty_false_of_ne o ho, isEmpty_false_of_ne r hr]
  · intro f owner repo dir d hstep hdir
    rw [resolve_owner_repo_step1_false f owner repo (some dir) d hstep]
    simp [isEmpty_false_of_ne dir hdir]
  · intro f owner repo directory d hstep hdirec
    rw [resolve_owner_repo_step1_false f owner repo directory (some d) hstep]
    match directory, hdirec with
    | none, _ => rfl
    | some dd, hd =>
      simp only [dirAbsent] at hd
      simp [hd]
  · intro f owner repo directory hstep hdirec
    rw [resolve_owner_repo_step1_false f owner repo directory none hstep]
    match directory, hdirec with
    | none, _ => rfl
    | some dd, hd =>
      simp only [dirAbsent] at hd
      simp [hd]
  · intro f d
    rfl

/-- Witness for C1 exercising all five conjuncts at concrete inputs,
including the claim's particular scenario of explicit owner `a` and empty
repo falling through to the cached default. -/
theorem resolve_owner_repo_precedence_witness :
    resolve_owner_repo failResolver (some "x") (some "y")
        (some "/z") (some ⟨"do", "dr"⟩) = .ok ("x", "y") ∧
    resolve_owner_repo failResolver none none (some "/z")
        (some ⟨"do", "dr"⟩) =
      (failResolver "/z").map (fun i => (i.owner, i.repo)) ∧
    resolve_owner_repo failResolver none (some "q") none
        (some ⟨"do", "dr"⟩) = .ok ("do", "dr") ∧
    resolve_owner_repo failResolver none none none none =
      (failResolver ".").map (fun i => (i.owner, i.repo)) ∧
    resolve_owner_repo failResolver (some "a") (some "") none
        (some ⟨"do", "dr"⟩) = .ok ("do", "dr") := by
  refine ⟨?_, ?_, ?_, ?_, ?_⟩
  · exact resolve_owner_repo_precedence.1 failResolver "x" "y" (some "/z")
      (some ⟨"do", "dr"⟩) (by decide) (by decide)
  · exact resolve_owner_repo_precedence.2.1 failResolver none none "/z"
      (some ⟨"do", "dr"⟩) rfl (by decide)
  · exact resolve_owner_repo_precedence.2.2.1 failResolver none (some "q") none
      ⟨"do", "dr"⟩ rfl rfl
  · exact resolve_owner_repo_precedence.2.2.2.1 failResolver none none none rfl rfl
  · exact resolve_owner_repo_precedence.2.2.2.2 failResolver ⟨"do", "dr"⟩

/-- C4 counterexample: the normalizer renders the empty object — and a
deeply nested object with unknown keys — as the EMPTY string, not as
non-empty placeholder text. -/
theorem format_value_empty_object_counterexample :
    format_value (Json.obj []) = "" ∧
    format_value (Json.obj [("a", Json.obj [("b", Json.obj [("c", Json.num 1)])])]) = "" :=
  ⟨rfl, rfl⟩

/-- C4 (amended): `format_value` is total by construction and never
raises; `null` and `[]` produce the stated non-empty placeholders, while
`{}` — and more generally any object all of whose fields are omitted,
such as a deeply nested object with unknown keys — renders as the empty
string rather than placeholder text. -/
theorem format_value_totality_amended :
    format_value Json.null = "No data returned." ∧
    format_value (Json.arr []) = "No items found." ∧
    (∀ fields : List (String × Json), (∀ p ∈ fields, format_field p.1 p.2 = "") →
      format_value (Json.obj fields) = "") := by
  refine ⟨rfl, rfl, ?_⟩
  intro fields h
  have hf : (fields.map fun p => format_field p.1 p.2).filter (fun l => !l.isEmpty) = [] := by
    rw [List.filter_eq_nil_iff]
    intro a ha
    rcases List.mem_map.mp ha with ⟨p, hp, rfl⟩
    rw [h p hp]
    decide
  simp only [format_value, format_object, hf]
  rfl

/-- Witness for C4 applying the omitted-fields conjunct to a deeply
nested object with unknown keys. -/
theorem format_value_totality_amended_witness :
    format_value (Json.obj [("deep", Json.obj [("x", Json.obj [("y", Json.num 2)])])]) = "" := by
  refine format_value_totality_amended.2.2
    [("deep", Json.obj [("x", Json.obj [("y", Json.num 2)])])] ?_
  intro p hp
  rcases List.mem_singleton.mp hp with rfl
  rfl

/-- C7: for every config content with no `[remote "origin"]` section — or
containing the section but with no `url = value` assignment on any line
INSIDE it (url keys in other sections are irrelevant) — `resolve_repo`
returns the `RepoResolution` error naming the missing origin remote; the
scan is a total function and cannot panic. -/
theorem resolve_repo_missing_origin :
    ∀ (directory content : String),
      ((∀ l ∈ rustLines content, rustTrim l ≠ "[remote \"origin\"]") ∨
       (∀ l ∈ originSectionLines (rustLines content) false,
          extractUrlValue (rustTrim l) = none)) →
      resolve_repo directory (.content content) =
        .error (.RepoResolution "No remote 'origin' URL found in .git/config") := by
  intro directory content h
  show findOriginUrlGo (rustLines content) false = _
  apply findOriginGo_of_section_no_url
  rcases h with h | h
  · rw [originSectionLines_nil_of_no_header _ h]
    intro l hl
    exact absurd hl (List.not_mem_nil l)
  · exact h

/-- C3: the locator maps the SSH shorthand `git@host:org/proj.git` and the
HTTPS remote `https://host/org/proj` to the coordinates `org`/`proj`, and
every path whose normalized form has fewer than two slash-separated
segments fails with `RepoResolution` naming that path. -/
theorem parse_remote_url_roundtrip :
    parse_remote_url "git@host:org/proj.git" = .ok ⟨"org", "proj"⟩ ∧
    parse_remote_url "https://host/org/proj" = .ok ⟨"org", "proj"⟩ ∧
    (∀ path : String, (splitOnChar '/' (pathNormalize path)).length < 2 →
      extract_owner_repo path =
        .error (.RepoResolution
          ("Cannot extract owner/repo from path: " ++ pathNormalize path))) := by
  refine ⟨rfl, rfl, ?_⟩
  intro path hlen
  rw [extract_owner_repo_eq_spec]
  simp only [extract_owner_repo_spec]
  cases hs : splitOnChar '/' (pathNormalize path) with
  | nil => rfl
  | cons a t =>
    cases t with
    | nil => rfl
    | cons b t2 =>
      rw [hs] at hlen
      exact absurd hlen (by simp)

/-- Witness for C3's failure conjunct at a one-segment path. -/
theorem parse_remote_url_roundtrip_witness :
    extract_owner_repo "justone" =
      .error (.RepoResolution
        ("Cannot extract owner/repo from path: " ++ pathNormalize "justone")) :=
  parse_remote_url_roundtrip.2.2 "justone" (by decide)

/-- C5 counterexample: the source's `trim_end_matches(".git")` strips EVERY
trailing `.git` occurrence, not a single one: on `org/proj.git.git` the
code yields the name `proj`, while a single strip yields `proj.git`. -/
theorem extract_owner_repo_double_git_counterexample :
    extract_owner_repo "org/proj.git.git" = .ok ⟨"org", "proj"⟩ ∧
    extract_owner_repo_singleStrip "org/proj.git.git" = .ok ⟨"org", "proj.git"⟩ ∧
    ("proj" : String) ≠ "proj.git" :=
  ⟨rfl, rfl, by decide⟩

/-- C5 (amended): in every branch, ALL trailing `.git` occurrences and the
surrounding `/` characters are stripped from the path, which is then split
on `/` into at most three parts whose first two become owner and name —
equivalently, owner and name are the first two segments of the full split
of the normalized path, and fewer than two segments is a failure naming
the path. -/
theorem extract_owner_repo_amended :
    (∀ path : String, extract_owner_repo path = extract_owner_repo_spec path) ∧
    (∀ path : String, (rustSplitn 3 '/' (pathNormalize path)).length ≤ 3) := by
  refine ⟨extract_owner_repo_eq_spec, ?_⟩
  intro path
  simpa [rustSplitn] using splitnL_length_le '/' 3 (pathNormalize path).data (by omega)

/-- C6 counterexample: a remote with user name `deploy` does not take the
SSH-shorthand branch — the source only strips the literal `git@` — so
`deploy@host:org/proj.git` falls through to the fallback and yields owner
`deploy@host:org`, not `org`. -/
theorem ssh_shorthand_user_counterexample :
    parse_remote_url "deploy@host:org/proj.git" = .ok ⟨"deploy@host:org", "proj"⟩ ∧
    parse_remote_url "deploy@host:org/proj.git" ≠ .ok ⟨"org", "proj"⟩ :=
  ⟨rfl, by decide⟩

/-- C6 (amended): only remotes beginning with the literal `git@` take the
SSH-shorthand branch: for every such remote whose remainder contains a
colon, the locator splits at the first colon and extracts owner and name
from the remainder. -/
theorem ssh_shorthand_git_prefix_amended :
    ∀ (rest hostPart pathPart : String),
      rustTrim ("git@" ++ rest) = "git@" ++ rest →
      splitOnceStr ':' rest = some (hostPart, pathPart) →
      parse_remote_url ("git@" ++ rest) = extract_owner_repo pathPart := by
  intro rest hostPart pathPart htrim hsplit
  have hstrip : rustStripPre? "git@" ("git@" ++ rest) = some rest := by
    simp only [rustStripPre?, String.data_append]
    rw [dropPre?_append]
    rfl
  have hpath : sshShorthandPath ("git@" ++ rest) = some pathPart := by
    simp [sshShorthandPath, hstrip, hsplit]
  simp only [parse_remote_url, htrim, hpath]

/-- Witness for C6's amended branch characterization at a concrete
`git@` remote. -/
theorem ssh_shorthand_git_prefix_amended_witness :
    parse_remote_url ("git@" ++ "host:org/proj.git") = extract_owner_repo "org/proj.git" :=
  ssh_shorthand_git_prefix_amended "host:org/proj.git" "host" "org/proj.git"
    (by decide) (by decide)

/-- Witness for C7 on a config whose origin section holds no url key
while ANOTHER section does hold one. -/
theorem resolve_repo_missing_origin_witness :
    resolve_repo "/work"
        (.content "[remote \"origin\"]\n\tfetch = +refs/heads/x\n[remote \"upstream\"]\n\turl = git@h:o/r.git\n") =
      .error (.RepoResolution "No remote 'origin' URL found in .git/config") := by
  exact resolve_repo_missing_origin "/work"
    "[remote \"origin\"]\n\tfetch = +refs/heads/x\n[remote \"upstream\"]\n\turl = git@h:o/r.git\n"
    (Or.inr (by decide))

end Gitx
